import Mathlib

/-!
Verification of the todo backend (`src/todo_app_backend/src/api/main.py`).

The program is a CRUD service over a single `todos` table. Below is a
shallow embedding of its data model, its data-access operations and its
request handlers, followed by theorems settling the specification claims.

The table is modelled as a list of rows together with the storage
engine's id allocator. Row ids are SQLite `INTEGER PRIMARY KEY` values,
typed `int` in the source; they are embedded as `Int`. The id allocator
itself lives in the storage engine, outside the repository source; it is
modelled from the spec, which states that ids are monotonically assigned
by the storage engine: the allocator hands out `nextId` and increments it.
Raising `HTTPException(404)` is modelled by returning a `notFound`
response; the framework's rejection of a malformed request is modelled by
a `validationError` response.
-/

namespace TodoApp

/-- A persisted row of the `todos` table (ORM model `TodoORM`, main.py
lines 21-28): integer primary key `id`, non-null `title`, nullable
`description`, non-null `completed`. -/
structure Todo where
  id : Int
  title : String
  description : Option String
  completed : Bool
deriving DecidableEq

/-- The database state: the rows of the `todos` table, plus the storage
engine's id allocator. Modelled from the spec: the spec states ids are
monotonically assigned by the storage engine (the allocation algorithm is
SQLite's, not repository source), so `nextId` is the next id the engine
will hand out. A fresh database starts with no rows and `nextId = 1`. -/
structure DB where
  rows : List Todo
  nextId : Int
deriving DecidableEq

/-- Payload to create a Todo (`TodoCreate`, main.py lines 40-43):
required `title`, optional `description`. -/
structure TodoCreate where
  title : String
  description : Option String
deriving DecidableEq

/-- Payload to fully update a Todo via PUT (`TodoUpdate`, main.py lines
46-50): required `title`, optional `description`, required `completed`. -/
structure TodoUpdate where
  title : String
  description : Option String
  completed : Bool
deriving DecidableEq

/-- The observable HTTP outcome of a handler. -/
inductive Resp where
  /-- 200 with a single Todo body. -/
  | ok (t : Todo)
  /-- 200 with a list body. -/
  | okList (ts : List Todo)
  /-- 201 with the created Todo body. -/
  | created (t : Todo)
  /-- 204, empty body. -/
  | noContent
  /-- 404 raised as `HTTPException(status_code=404, detail=...)`. -/
  | notFound (detail : String)
  /-- 422-class rejection by the framework's request validation. -/
  | validationError
deriving DecidableEq

/-- Shallow embedding of the Python expression `payload.description or None`
(main.py line 175): a falsy operand, i.e. `None` or the empty string,
yields `None`; any other string is returned unchanged. -/
def pyOrNone (d : Option String) : Option String :=
  match d with
  | none => none
  | some s => if s = "" then none else some s

/-- Helper `get_todo_or_404` (main.py lines 118-123):
`db.query(TodoORM).filter(TodoORM.id == todo_id).one_or_none()`; `none`
models the raised 404 `HTTPException`. Under the table's primary-key
uniqueness, `find?` returns the row with the given id if any. -/
def get_todo_or_404 (db : DB) (todo_id : Int) : Option Todo :=
  db.rows.find? (fun t => t.id == todo_id)

/-- Boolean comparison used by the `ORDER BY id ASC` of the list query. -/
def idLe (a b : Todo) : Bool := decide (a.id ≤ b.id)

/-- Handler `list_todos` (main.py lines 129-138): returns all rows
ordered by ascending id. -/
def list_todos (db : DB) : Resp :=
  Resp.okList (db.rows.mergeSort idLe)

/-- Handler `get_todo` (main.py lines 142-154): look up by id, 404 if
absent, else 200 with the row. -/
def get_todo (db : DB) (todo_id : Int) : Resp :=
  match get_todo_or_404 db todo_id with
  | none => Resp.notFound "Todo not found"
  | some t => Resp.ok t

/-- Handler `create_todo` (main.py lines 165-179): inserts a row with the
payload's title, `description=payload.description or None`, and
`completed=False`; the engine assigns the id; returns 201 with the
persisted row. -/
def create_todo (db : DB) (payload : TodoCreate) : Resp × DB :=
  let todo : Todo :=
    { id := db.nextId, title := payload.title,
      description := pyOrNone payload.description, completed := false }
  (Resp.created todo, { rows := db.rows ++ [todo], nextId := db.nextId + 1 })

/-- Handler `update_todo` (main.py lines 184-202): look up by id (404 if
absent), then overwrite title, description and completed with the
payload's values, commit, and return 200 with the updated row. -/
def update_todo (db : DB) (todo_id : Int) (payload : TodoUpdate) : Resp × DB :=
  match get_todo_or_404 db todo_id with
  | none => (Resp.notFound "Todo not found", db)
  | some t =>
    let t2 : Todo :=
      { id := t.id, title := payload.title,
        description := payload.description, completed := payload.completed }
    (Resp.ok t2,
      { db with rows := db.rows.map (fun r => if r.id == todo_id then t2 else r) })

/-- Handler `toggle_todo` (main.py lines 212-227): look up by id (404 if
absent), then set `completed` to its logical negation, commit, and return
200 with the updated row. -/
def toggle_todo (db : DB) (todo_id : Int) : Resp × DB :=
  match get_todo_or_404 db todo_id with
  | none => (Resp.notFound "Todo not found", db)
  | some t =>
    let t2 : Todo := { t with completed := !t.completed }
    (Resp.ok t2,
      { db with rows := db.rows.map (fun r => if r.id == todo_id then t2 else r) })

/-- Handler `delete_todo` (main.py lines 237-251): look up by id (404 if
absent), then delete the row and return 204 with no body. -/
def delete_todo (db : DB) (todo_id : Int) : Resp × DB :=
  match get_todo_or_404 db todo_id with
  | none => (Resp.notFound "Todo not found", db)
  | some _ =>
    (Resp.noContent, { db with rows := db.rows.filter (fun r => r.id != todo_id) })

/-- First seed row inserted by `init_db` (main.py line 68). -/
def sample1 (i : Int) : Todo :=
  { id := i, title := "Buy groceries", description := some "Milk, Bread, Eggs",
    completed := false }

/-- Second seed row inserted by `init_db` (main.py line 69). -/
def sample2 (i : Int) : Todo :=
  { id := i, title := "Read a book",
    description := some "Finish reading \x27Atomic Habits\x27", completed := true }

/-- Startup initialisation `init_db` (main.py lines 61-72): ensure the
schema exists, count the rows, and if the count is zero insert the two
sample rows (ids assigned by the engine); otherwise do nothing. -/
def init_db (db : DB) : DB :=
  if db.rows.length == 0 then
    { rows := db.rows ++ [sample1 db.nextId, sample2 (db.nextId + 1)],
      nextId := db.nextId + 2 }
  else db

/-- A fresh database: empty table, engine allocator at 1. -/
def emptyDB : DB := { rows := [], nextId := 1 }

/-- The database right after first startup on a fresh store. -/
def seededDB : DB := init_db emptyDB

/-- Accumulate decimal digits; fails on the first non-digit character. -/
def digitsToNat (acc : Nat) : List Char → Option Nat
  | [] => some acc
  | c :: cs => if c.isDigit then digitsToNat (10 * acc + (c.toNat - 48)) cs else none

/-- Modelled from the spec and the route declarations: FastAPI parses the
path segment against the annotation `todo_id: int` (main.py lines 143,
184, 212, 237) and rejects a non-integer-shaped segment with a validation
error before the handler runs: an optional minus sign followed by at
least one decimal digit parses to the corresponding integer, anything
else is rejected. The source declares no positivity constraint on the
parameter. -/
def parse_path_id (raw : List Char) : Option Int :=
  match raw with
  | [] => none
  | '-' :: c :: cs =>
    if c.isDigit then (digitsToNat 0 (c :: cs)).map (fun n => -(n : Int)) else none
  | c :: cs =>
    if c.isDigit then (digitsToNat 0 (c :: cs)).map (fun n => (n : Int)) else none

/-- The GET `/todos/{todo_id}` route including the framework's path
validation: malformed id shape is rejected before the handler runs. -/
def handle_get (db : DB) (raw : List Char) : Resp :=
  match parse_path_id raw with
  | none => Resp.validationError
  | some i => get_todo db i

/-- The PATCH `/todos/{todo_id}/toggle` route including path validation. -/
def handle_toggle (db : DB) (raw : List Char) : Resp × DB :=
  match parse_path_id raw with
  | none => (Resp.validationError, db)
  | some i => toggle_todo db i

/-- The DELETE `/todos/{todo_id}` route including path validation. -/
def handle_delete (db : DB) (raw : List Char) : Resp × DB :=
  match parse_path_id raw with
  | none => (Resp.validationError, db)
  | some i => delete_todo db i

/-- The PUT `/todos/{todo_id}` route including path validation. -/
def handle_update (db : DB) (raw : List Char) (payload : TodoUpdate) : Resp × DB :=
  match parse_path_id raw with
  | none => (Resp.validationError, db)
  | some i => update_todo db i payload

/-- A mutating API operation, for reasoning about request traces. -/
inductive Op where
  | createOp (p : TodoCreate)
  | updateOp (i : Int) (p : TodoUpdate)
  | toggleOp (i : Int)
  | deleteOp (i : Int)
deriving DecidableEq

/-- Dispatch one operation to its handler. -/
def applyOp (db : DB) (o : Op) : Resp × DB :=
  match o with
  | .createOp p => create_todo db p
  | .updateOp i p => update_todo db i p
  | .toggleOp i => toggle_todo db i
  | .deleteOp i => delete_todo db i

/-- Run a trace of operations, threading the database state. -/
def runOps (db : DB) : List Op → DB
  | [] => db
  | o :: rest => runOps (applyOp db o).2 rest

/-- An id occurs in the current table. -/
def idSeen (db : DB) (i : Int) : Prop := ∃ t ∈ db.rows, t.id = i

/-- An id occurs in the table at some point while running a trace
(including the initial and all intermediate states). -/
def everSeen (db : DB) : List Op → Int → Prop
  | [], i => idSeen db i
  | o :: rest, i => idSeen db i ∨ everSeen (applyOp db o).2 rest i

/-- State invariant of the embedded database: the allocator is at least 1,
every row id is at least 1 and below the allocator, and row ids are
pairwise distinct (the table's primary-key property). -/
def Inv (db : DB) : Prop :=
  1 ≤ db.nextId ∧ (∀ t ∈ db.rows, 1 ≤ t.id ∧ t.id < db.nextId) ∧
    (db.rows.map Todo.id).Nodup

instance (db : DB) : Decidable (Inv db) := by
  unfold Inv
  infer_instance

/-- The row inserted by `create_todo` for a given allocator value. -/
def createdRow (db : DB) (p : TodoCreate) : Todo :=
  { id := db.nextId, title := p.title, description := pyOrNone p.description,
    completed := false }

/-- The row written by `update_todo`: every mutable field overwritten with
the payload's value, the id kept. -/
def replacedRow (t : Todo) (p : TodoUpdate) : Todo :=
  { id := t.id, title := p.title, description := p.description,
    completed := p.completed }

/-- The row written by `toggle_todo`: only `completed` is negated. -/
def toggledRow (t : Todo) : Todo :=
  { id := t.id, title := t.title, description := t.description,
    completed := !t.completed }

/-- A concrete replace payload used in witnesses. -/
def payloadA : TodoUpdate :=
  { title := "t", description := none, completed := true }

/-- A concrete replace payload used in witnesses. -/
def payloadMilk : TodoUpdate :=
  { title := "Buy milk", description := some "2", completed := true }

/-- Number of create operations in a trace. -/
def countCreates (ops : List Op) : Nat :=
  ops.countP (fun o => match o with | Op.createOp _ => true | _ => false)

/-- Number of delete operations in a trace. -/
def countDeletes (ops : List Op) : Nat :=
  ops.countP (fun o => match o with | Op.deleteOp _ => true | _ => false)

/-- A trace consisting only of creates and of deletes of ids that exist
in the store at the moment they are deleted. -/
def goodTrace (db : DB) : List Op → Bool
  | [] => true
  | Op.createOp p :: rest => goodTrace (create_todo db p).2 rest
  | Op.deleteOp i :: rest =>
    db.rows.any (fun t => t.id == i) && goodTrace (delete_todo db i).2 rest
  | _ => false

/-- A concrete trace used in witnesses: two creates, then a delete of an
existing id. -/
def traceW : List Op :=
  [Op.createOp { title := "a", description := none },
    Op.createOp { title := "b", description := none },
    Op.deleteOp 1]

/-! ### Helper lemmas about the embedded table operations -/

theorem create_todo_eq (db : DB) (p : TodoCreate) :
    create_todo db p =
      (Resp.created (createdRow db p),
        { rows := db.rows ++ [createdRow db p], nextId := db.nextId + 1 }) := rfl

theorem update_todo_none (db : DB) (i : Int) (p : TodoUpdate)
    (h : get_todo_or_404 db i = none) :
    update_todo db i p = (Resp.notFound "Todo not found", db) := by
  unfold update_todo
  rw [h]

theorem update_todo_some (db : DB) (i : Int) (p : TodoUpdate) (t : Todo)
    (h : get_todo_or_404 db i = some t) :
    update_todo db i p =
      (Resp.ok (replacedRow t p),
        { db with rows := db.rows.map (fun r =>
            if r.id == i then replacedRow t p else r) }) := by
  unfold update_todo
  rw [h]
  rfl

theorem toggle_todo_none (db : DB) (i : Int)
    (h : get_todo_or_404 db i = none) :
    toggle_todo db i = (Resp.notFound "Todo not found", db) := by
  unfold toggle_todo
  rw [h]

theorem toggle_todo_some (db : DB) (i : Int) (t : Todo)
    (h : get_todo_or_404 db i = some t) :
    toggle_todo db i =
      (Resp.ok { t with completed := !t.completed },
       { db with rows := db.rows.map (fun r =>
          if r.id == i then { t with completed := !t.completed } else r) }) := by
  unfold toggle_todo
  rw [h]

theorem delete_todo_none (db : DB) (i : Int)
    (h : get_todo_or_404 db i = none) :
    delete_todo db i = (Resp.notFound "Todo not found", db) := by
  unfold delete_todo
  rw [h]

theorem delete_todo_some (db : DB) (i : Int) (t : Todo)
    (h : get_todo_or_404 db i = some t) :
    delete_todo db i =
      (Resp.noContent,
       { db with rows := db.rows.filter (fun r => r.id != i) }) := by
  unfold delete_todo
  rw [h]

theorem get404_eq_none_iff (db : DB) (i : Int) :
    get_todo_or_404 db i = none ↔ ∀ t ∈ db.rows, t.id ≠ i := by
  simp [get_todo_or_404, List.find?_eq_none]

theorem get404_some_mem {db : DB} {i : Int} {t : Todo}
    (h : get_todo_or_404 db i = some t) : t ∈ db.rows ∧ t.id = i := by
  refine ⟨List.mem_of_find?_eq_some h, ?_⟩
  have := List.find?_some h
  simpa using this

theorem find?_map_replace (l : List Todo) (i : Int) (c : Todo) (hc : c.id = i)
    (t : Todo) (h : l.find? (fun r => r.id == i) = some t) :
    (l.map (fun r => if r.id == i then c else r)).find? (fun r => r.id == i) =
      some c := by
  induction l with
  | nil => simp at h
  | cons a rest ih =>
    cases hb : (a.id == i) with
    | true =>
      have ha : a.id = i := by simpa using hb
      have hcb : (c.id == i) = true := by simpa using hc
      simp [List.find?_cons, ha, hcb]
    | false =>
      simp only [List.find?_cons, hb, cond_false] at h
      simp only [List.map_cons, hb, Bool.false_eq_true, if_false, List.find?_cons,
        cond_false]
      exact ih h

theorem filter_ne_map_replace (l : List Todo) (i : Int) (c : Todo) (hc : c.id = i) :
    (l.map (fun r => if r.id == i then c else r)).filter (fun r => r.id != i) =
      l.filter (fun r => r.id != i) := by
  induction l with
  | nil => rfl
  | cons a rest ih =>
    cases hb : (a.id == i) with
    | true =>
      have hab : (a.id != i) = false := by simp [bne, hb]
      have hcb : (c.id != i) = false := by simp [bne, hc]
      simp only [List.map_cons, hb, if_true, List.filter_cons, hab, hcb,
        Bool.false_eq_true, if_false]
      exact ih
    | false =>
      have hab : (a.id != i) = true := by simp [bne, hb]
      simp only [List.map_cons, hb, Bool.false_eq_true, if_false, List.filter_cons,
        hab, if_true]
      rw [ih]

theorem find?_filter_ne (l : List Todo) (i : Int) :
    (l.filter (fun r => r.id != i)).find? (fun r => r.id == i) = none := by
  rw [List.find?_eq_none]
  intro x hx
  have := (List.mem_filter.mp hx).2
  simpa using this

theorem map_id_map_replace (l : List Todo) (i : Int) (c : Todo) (hc : c.id = i) :
    (l.map (fun r => if r.id == i then c else r)).map Todo.id = l.map Todo.id := by
  induction l with
  | nil => rfl
  | cons a rest ih =>
    cases hb : (a.id == i) with
    | true =>
      have ha : a.id = i := by simpa using hb
      simp only [List.map_cons, hb, if_true]
      rw [ih]
      simp [hc, ha]
    | false =>
      simp only [List.map_cons, hb, Bool.false_eq_true, if_false]
      rw [ih]

theorem length_filter_remove (l : List Todo) (i : Int)
    (hnd : (l.map Todo.id).Nodup) (t : Todo) (ht : t ∈ l) (hti : t.id = i) :
    (l.filter (fun r => r.id != i)).length + 1 = l.length := by
  induction l with
  | nil => cases ht
  | cons a rest ih =>
    simp only [List.map_cons, List.nodup_cons] at hnd
    by_cases ha : a.id = i
    · have hrest : ∀ r ∈ rest, r.id ≠ i := by
        intro r hr hri
        apply hnd.1
        rw [ha, ← hri]
        exact List.mem_map_of_mem Todo.id hr
      have : rest.filter (fun r => r.id != i) = rest := by
        rw [List.filter_eq_self]
        intro r hr
        simpa using hrest r hr
      simp [List.filter_cons, ha, this]
    · have htr : t ∈ rest := by
        rcases List.mem_cons.mp ht with h | h
        · exact absurd (h ▸ hti) ha
        · exact h
      have := ih hnd.2 htr
      simp [List.filter_cons, ha]
      omega

/-! ### Invariant preservation and trace lemmas -/

theorem inv_create (db : DB) (p : TodoCreate) (h : Inv db) :
    Inv (create_todo db p).2 := by
  obtain ⟨h1, h2, h3⟩ := h
  rw [create_todo_eq]
  refine ⟨by simp; omega, ?_, ?_⟩
  · intro t ht
    simp only at ht ⊢
    rcases List.mem_append.mp ht with hm | hm
    · have := h2 t hm
      omega
    · have : t.id = db.nextId := by
        rcases List.mem_singleton.mp hm with rfl
        rfl
      omega
  · simp only [List.map_append, List.map_cons, List.map_nil]
    rw [List.nodup_append]
    refine ⟨h3, List.nodup_singleton _, ?_⟩
    intro x hx
    have hlt : x < db.nextId := by
      rcases List.mem_map.mp hx with ⟨r, hr, hrx⟩
      have := h2 r hr
      omega
    simp only [List.mem_singleton]
    intro hx2
    rw [show (createdRow db p).id = db.nextId from rfl] at hx2
    omega

theorem inv_replaceRow (db : DB) (i : Int) (c : Todo)
    (hc : c.id = i) (h : Inv db) :
    Inv { db with rows := db.rows.map (fun r => if r.id == i then c else r) } := by
  obtain ⟨h1, h2, h3⟩ := h
  refine ⟨h1, ?_, ?_⟩
  · intro x hx
    simp only at hx ⊢
    rcases List.mem_map.mp hx with ⟨r, hr, hxr⟩
    cases hb : (r.id == i) with
    | true =>
      rw [← hxr, if_pos hb, hc]
      have hri : r.id = i := by simpa using hb
      rw [← hri]
      exact h2 r hr
    | false =>
      rw [← hxr, if_neg (by simp [hb])]
      exact h2 r hr
  · simp only
    rw [map_id_map_replace db.rows i c hc]
    exact h3

theorem inv_deleteRows (db : DB) (i : Int) (h : Inv db) :
    Inv { db with rows := db.rows.filter (fun r => r.id != i) } := by
  obtain ⟨h1, h2, h3⟩ := h
  refine ⟨h1, ?_, ?_⟩
  · intro x hx
    exact h2 x (List.mem_of_mem_filter hx)
  · simp only
    exact List.Nodup.sublist (List.Sublist.map Todo.id (List.filter_sublist _)) h3

theorem inv_applyOp (db : DB) (o : Op) (h : Inv db) : Inv (applyOp db o).2 := by
  cases o with
  | createOp p =>
    exact inv_create db p h
  | updateOp i p =>
    show Inv (update_todo db i p).2
    cases hf : get_todo_or_404 db i with
    | none => rw [update_todo_none db i p hf]; exact h
    | some t =>
      rw [update_todo_some db i p t hf]
      exact inv_replaceRow db i _ (get404_some_mem hf).2 h
  | toggleOp i =>
    show Inv (toggle_todo db i).2
    cases hf : get_todo_or_404 db i with
    | none => rw [toggle_todo_none db i hf]; exact h
    | some t =>
      rw [toggle_todo_some db i t hf]
      exact inv_replaceRow db i _ (get404_some_mem hf).2 h
  | deleteOp i =>
    show Inv (delete_todo db i).2
    cases hf : get_todo_or_404 db i with
    | none => rw [delete_todo_none db i hf]; exact h
    | some t =>
      rw [delete_todo_some db i t hf]
      exact inv_deleteRows db i h

theorem update_nextId (db : DB) (i : Int) (p : TodoUpdate) :
    (update_todo db i p).2.nextId = db.nextId := by
  unfold update_todo
  cases get_todo_or_404 db i <;> rfl

theorem toggle_nextId (db : DB) (i : Int) :
    (toggle_todo db i).2.nextId = db.nextId := by
  unfold toggle_todo
  cases get_todo_or_404 db i <;> rfl

theorem delete_nextId (db : DB) (i : Int) :
    (delete_todo db i).2.nextId = db.nextId := by
  unfold delete_todo
  cases get_todo_or_404 db i <;> rfl

theorem nextId_le_applyOp (db : DB) (o : Op) :
    db.nextId ≤ (applyOp db o).2.nextId := by
  cases o with
  | createOp p =>
    show db.nextId ≤ (create_todo db p).2.nextId
    rw [create_todo_eq]
    simp
  | updateOp i p =>
    show db.nextId ≤ (update_todo db i p).2.nextId
    rw [update_nextId]
  | toggleOp i =>
    show db.nextId ≤ (toggle_todo db i).2.nextId
    rw [toggle_nextId]
  | deleteOp i =>
    show db.nextId ≤ (delete_todo db i).2.nextId
    rw [delete_nextId]

theorem inv_runOps (ops : List Op) (db : DB) (h : Inv db) :
    Inv (runOps db ops) := by
  induction ops generalizing db with
  | nil => exact h
  | cons o rest ih => exact ih _ (inv_applyOp db o h)

theorem nextId_le_runOps (ops : List Op) (db : DB) :
    db.nextId ≤ (runOps db ops).nextId := by
  induction ops generalizing db with
  | nil => exact le_refl _
  | cons o rest ih => exact le_trans (nextId_le_applyOp db o) (ih _)

theorem idSeen_lt_nextId (db : DB) (i : Int) (h : Inv db) (hs : idSeen db i) :
    i < db.nextId := by
  obtain ⟨t, ht, hti⟩ := hs
  have := h.2.1 t ht
  omega

theorem everSeen_lt_nextId (ops : List Op) (db : DB) (i : Int) (h : Inv db)
    (hs : everSeen db ops i) : i < (runOps db ops).nextId := by
  induction ops generalizing db with
  | nil => exact idSeen_lt_nextId db i h hs
  | cons o rest ih =>
    simp only [everSeen] at hs
    show i < (runOps (applyOp db o).2 rest).nextId
    rcases hs with hs | hs
    · have h1 := idSeen_lt_nextId db i h hs
      have h2 := nextId_le_applyOp db o
      have h3 := nextId_le_runOps rest (applyOp db o).2
      omega
    · exact ih _ (inv_applyOp db o h) hs

theorem createdRow_id (db : DB) (p : TodoCreate) :
    (createdRow db p).id = db.nextId := rfl

/-- A freshly created row is retrievable by its id right after the
insert: no earlier row can shadow it, since every earlier id is below the
allocator value. -/
theorem get404_after_create (db : DB) (p : TodoCreate) (h : Inv db) :
    get_todo_or_404 (create_todo db p).2 (createdRow db p).id =
      some (createdRow db p) := by
  rw [create_todo_eq]
  show ((db.rows ++ [createdRow db p]).find?
    (fun r => r.id == (createdRow db p).id)) = some (createdRow db p)
  rw [List.find?_append]
  have hnone : db.rows.find? (fun r => r.id == (createdRow db p).id) = none := by
    rw [List.find?_eq_none]
    intro x hx
    have hb := h.2.1 x hx
    have hne : x.id ≠ db.nextId := by omega
    simp only [createdRow_id, beq_iff_eq]
    exact hne
  rw [hnone]
  simp [List.find?_cons]

/-! ### Claim theorems -/

/-- C2: for every id absent from the store, each of get, replace, toggle
and delete returns the 404 response with detail Todo not found, never a
crash or empty success, and the store is left unchanged: the existence
check happens before any mutation is attempted. -/
theorem absent_id_uniform_notfound (db : DB) (i : Int) (p : TodoUpdate)
    (h : ∀ t ∈ db.rows, t.id ≠ i) :
    get_todo db i = Resp.notFound "Todo not found" ∧
    update_todo db i p = (Resp.notFound "Todo not found", db) ∧
    toggle_todo db i = (Resp.notFound "Todo not found", db) ∧
    delete_todo db i = (Resp.notFound "Todo not found", db) := by
  have hf : get_todo_or_404 db i = none := (get404_eq_none_iff db i).mpr h
  refine ⟨?_, update_todo_none db i p hf, toggle_todo_none db i hf,
    delete_todo_none db i hf⟩
  unfold get_todo
  rw [hf]

/-- Witness for C2: the seeded database and the absent id 999. -/
theorem absent_id_uniform_notfound_witness :
    (∀ t ∈ seededDB.rows, t.id ≠ 999) ∧
    (get_todo seededDB 999 = Resp.notFound "Todo not found" ∧
     update_todo seededDB 999 payloadA = (Resp.notFound "Todo not found", seededDB) ∧
     toggle_todo seededDB 999 = (Resp.notFound "Todo not found", seededDB) ∧
     delete_todo seededDB 999 = (Resp.notFound "Todo not found", seededDB)) :=
  ⟨by decide, absent_id_uniform_notfound seededDB 999 payloadA (by decide)⟩

/-- C3: toggle is an involution: for every id present in the store, one
toggle returns the row with completed negated, and a second toggle
returns the row's completed flag to its original value, both in the
response and in the store. -/
theorem toggle_todo_involution (db : DB) (i : Int) (t : Todo)
    (h : get_todo_or_404 db i = some t) :
    (toggle_todo db i).1 = Resp.ok { t with completed := !t.completed } ∧
    get_todo_or_404 (toggle_todo db i).2 i =
      some { t with completed := !t.completed } ∧
    (toggle_todo (toggle_todo db i).2 i).1 = Resp.ok t ∧
    get_todo_or_404 (toggle_todo (toggle_todo db i).2 i).2 i = some t := by
  have hti : t.id = i := (get404_some_mem h).2
  have h2 : get_todo_or_404 (toggle_todo db i).2 i =
      some { t with completed := !t.completed } := by
    rw [toggle_todo_some db i t h]
    exact find?_map_replace db.rows i _ hti t h
  have heta : ({ t with completed := !(!t.completed) } : Todo) = t := by
    rw [Bool.not_not]
  refine ⟨by rw [toggle_todo_some db i t h], h2, ?_, ?_⟩
  · rw [toggle_todo_some _ i _ h2]
    show Resp.ok { t with completed := !(!t.completed) } = Resp.ok t
    rw [heta]
  · rw [toggle_todo_some _ i _ h2]
    show ((toggle_todo db i).2.rows.map (fun r =>
        if r.id == i then { t with completed := !(!t.completed) } else r)).find?
      (fun r => r.id == i) = some t
    rw [heta]
    exact find?_map_replace (toggle_todo db i).2.rows i t hti
      ({ t with completed := !t.completed }) h2

/-- Witness for C3: the seeded database and id 1. -/
theorem toggle_todo_involution_witness :
    get_todo_or_404 seededDB 1 = some (sample1 1) ∧
    ((toggle_todo seededDB 1).1 =
        Resp.ok { sample1 1 with completed := !(sample1 1).completed } ∧
      get_todo_or_404 (toggle_todo seededDB 1).2 1 =
        some { sample1 1 with completed := !(sample1 1).completed } ∧
      (toggle_todo (toggle_todo seededDB 1).2 1).1 = Resp.ok (sample1 1) ∧
      get_todo_or_404 (toggle_todo (toggle_todo seededDB 1).2 1).2 1 =
        some (sample1 1)) :=
  ⟨by decide, toggle_todo_involution seededDB 1 (sample1 1) (by decide)⟩

/-- C4: replace is a full overwrite, not a merge: on an existing id it
overwrites title, description and completed with exactly the payload's
values (an absent description is stored as null), and a subsequent
get-by-id returns exactly those values. -/
theorem update_todo_full_overwrite (db : DB) (i : Int) (p : TodoUpdate) (t : Todo)
    (h : get_todo_or_404 db i = some t) :
    (update_todo db i p).1 = Resp.ok (replacedRow t p) ∧
    (replacedRow t p).title = p.title ∧
    (replacedRow t p).description = p.description ∧
    (replacedRow t p).completed = p.completed ∧
    (p.description = none → (replacedRow t p).description = none) ∧
    get_todo (update_todo db i p).2 i = Resp.ok (replacedRow t p) := by
  have hti : t.id = i := (get404_some_mem h).2
  have hfind : get_todo_or_404 (update_todo db i p).2 i = some (replacedRow t p) := by
    rw [update_todo_some db i p t h]
    exact find?_map_replace db.rows i _ hti t h
  refine ⟨by rw [update_todo_some db i p t h], rfl, rfl, rfl, fun hd => hd, ?_⟩
  unfold get_todo
  rw [hfind]

/-- Witness for C4: replacing the seeded row 1 with completed true. -/
theorem update_todo_full_overwrite_witness :
    get_todo_or_404 seededDB 1 = some (sample1 1) ∧
    ((update_todo seededDB 1 payloadMilk).1 =
        Resp.ok (replacedRow (sample1 1) payloadMilk) ∧
      (replacedRow (sample1 1) payloadMilk).title = "Buy milk" ∧
      (replacedRow (sample1 1) payloadMilk).description = some "2" ∧
      (replacedRow (sample1 1) payloadMilk).completed = true ∧
      ((some "2" : Option String) = none →
        (replacedRow (sample1 1) payloadMilk).description = none) ∧
      get_todo (update_todo seededDB 1 payloadMilk).2 1 =
        Resp.ok (replacedRow (sample1 1) payloadMilk)) :=
  ⟨by decide, update_todo_full_overwrite seededDB 1 payloadMilk
    (sample1 1) (by decide)⟩

/-- C6: for every id present in the store, delete returns 204 with an
empty body and removes the row permanently: a subsequent get-by-id on
that id yields 404, and no row with that id appears in list. -/
theorem delete_todo_removes_permanently (db : DB) (i : Int) (t : Todo)
    (h : get_todo_or_404 db i = some t) :
    (delete_todo db i).1 = Resp.noContent ∧
    get_todo (delete_todo db i).2 i = Resp.notFound "Todo not found" ∧
    (∀ ts : List Todo, list_todos (delete_todo db i).2 = Resp.okList ts →
      ∀ r ∈ ts, r.id ≠ i) := by
  have hfn : get_todo_or_404 (delete_todo db i).2 i = none := by
    rw [delete_todo_some db i t h]
    exact find?_filter_ne db.rows i
  refine ⟨by rw [delete_todo_some db i t h], ?_, ?_⟩
  · unfold get_todo
    rw [hfn]
  · intro ts hts r hr
    rw [delete_todo_some db i t h] at hts
    unfold list_todos at hts
    have hts2 := Resp.okList.inj hts
    rw [← hts2] at hr
    have hmem : r ∈ (db.rows.filter (fun r => r.id != i)) :=
      (List.mergeSort_perm _ idLe).mem_iff.mp hr
    have := (List.mem_filter.mp hmem).2
    simpa using this

/-- Witness for C6: deleting the seeded row 2. -/
theorem delete_todo_removes_permanently_witness :
    get_todo_or_404 seededDB 2 = some (sample2 2) ∧
    ((delete_todo seededDB 2).1 = Resp.noContent ∧
      get_todo (delete_todo seededDB 2).2 2 = Resp.notFound "Todo not found" ∧
      (∀ ts : List Todo, list_todos (delete_todo seededDB 2).2 = Resp.okList ts →
        ∀ r ∈ ts, r.id ≠ 2)) :=
  ⟨by decide, delete_todo_removes_permanently seededDB 2 (sample2 2) (by decide)⟩

/-- C10: every mutating operation on an existing id leaves every row with
a different id completely unchanged (replace, toggle and delete), and
toggle leaves the targeted row's id, title and description unchanged,
altering only its completed flag. -/
theorem mutating_ops_frame (db : DB) (i : Int) (p : TodoUpdate) (t : Todo)
    (h : get_todo_or_404 db i = some t) :
    (update_todo db i p).2.rows.filter (fun r => r.id != i) =
      db.rows.filter (fun r => r.id != i) ∧
    (toggle_todo db i).2.rows.filter (fun r => r.id != i) =
      db.rows.filter (fun r => r.id != i) ∧
    (delete_todo db i).2.rows.filter (fun r => r.id != i) =
      db.rows.filter (fun r => r.id != i) ∧
    (toggle_todo db i).1 = Resp.ok (toggledRow t) := by
  have hti : t.id = i := (get404_some_mem h).2
  refine ⟨?_, ?_, ?_, ?_⟩
  · rw [update_todo_some db i p t h]
    exact filter_ne_map_replace db.rows i _ hti
  · rw [toggle_todo_some db i t h]
    exact filter_ne_map_replace db.rows i _ hti
  · rw [delete_todo_some db i t h]
    simp [List.filter_filter]
  · rw [toggle_todo_some db i t h]
    rfl

/-- Witness for C10: toggling, replacing and deleting the seeded row 1. -/
theorem mutating_ops_frame_witness :
    get_todo_or_404 seededDB 1 = some (sample1 1) ∧
    ((update_todo seededDB 1 payloadA).2.rows.filter (fun r => r.id != 1) =
      seededDB.rows.filter (fun r => r.id != 1) ∧
    (toggle_todo seededDB 1).2.rows.filter (fun r => r.id != 1) =
      seededDB.rows.filter (fun r => r.id != 1) ∧
    (delete_todo seededDB 1).2.rows.filter (fun r => r.id != 1) =
      seededDB.rows.filter (fun r => r.id != 1) ∧
    (toggle_todo seededDB 1).1 = Resp.ok (toggledRow (sample1 1))) :=
  ⟨by decide, mutating_ops_frame seededDB 1 payloadA (sample1 1) (by decide)⟩

/-- On an empty table, `init_db` inserts exactly the two sample rows. -/
theorem init_db_of_empty (db : DB) (h : db.rows = []) :
    init_db db =
      { rows := [sample1 db.nextId, sample2 (db.nextId + 1)],
        nextId := db.nextId + 2 } := by
  unfold init_db
  rw [if_pos (by rw [h]; rfl)]
  rw [h]
  rfl

/-- On a non-empty table, `init_db` changes nothing. -/
theorem init_db_of_nonempty (db : DB) (h : db.rows ≠ []) :
    init_db db = db := by
  unfold init_db
  rw [if_neg]
  simp only [beq_iff_eq]
  exact fun hlen => h (List.length_eq_zero.mp hlen)

/-- C9: startup seeding is conditional and idempotent: if and only if the
table is empty, exactly the two sample rows are inserted (one completed,
one not); a non-empty table is left untouched, so repeated startups never
re-seed. -/
theorem init_db_seed_iff_empty (db : DB) :
    (db.rows = [] →
      (init_db db).rows = [sample1 db.nextId, sample2 (db.nextId + 1)] ∧
      (init_db db).rows.length = 2 ∧
      (sample1 db.nextId).completed = false ∧
      (sample2 (db.nextId + 1)).completed = true) ∧
    (db.rows ≠ [] → init_db db = db) ∧
    init_db (init_db db) = init_db db := by
  refine ⟨?_, init_db_of_nonempty db, ?_⟩
  · intro h
    rw [init_db_of_empty db h]
    exact ⟨rfl, rfl, rfl, rfl⟩
  · by_cases h : db.rows = []
    · apply init_db_of_nonempty
      rw [init_db_of_empty db h]
      simp
    · rw [init_db_of_nonempty db h, init_db_of_nonempty db h]

/-- Witness for C9: first startup on a fresh database seeds, and a second
startup does not re-seed. -/
theorem init_db_seed_iff_empty_witness :
    (emptyDB.rows = []) ∧
    ((init_db emptyDB).rows = [sample1 1, sample2 2] ∧
      (init_db emptyDB).rows.length = 2 ∧
      (sample1 1).completed = false ∧
      (sample2 2).completed = true) :=
  ⟨rfl, (init_db_seed_iff_empty emptyDB).1 rfl⟩

/-- C7 counterexample: creating a Todo with description equal to the
empty string persists null, not an empty-string description: the create
handler evaluates the Python expression `payload.description or None`,
which collapses the falsy empty string to None. -/
theorem create_empty_description_counterexample :
    (create_todo seededDB { title := "x", description := some "" }).1 =
      Resp.created { id := 3, title := "x", description := none, completed := false } ∧
    get_todo (create_todo seededDB { title := "x", description := some "" }).2 3 =
      Resp.ok { id := 3, title := "x", description := none, completed := false } ∧
    (none : Option String) ≠ some "" := by
  decide

/-- C7 (amended): the stored description distinguishes absent from
non-empty strings, but creating with an empty-string description persists
null exactly as omission does: only a non-empty description survives
creation; omission persists null. -/
theorem create_description_normalizes_empty (db : DB) (p : TodoCreate)
    (h : Inv db) :
    ∃ t : Todo, (create_todo db p).1 = Resp.created t ∧
      get_todo_or_404 (create_todo db p).2 t.id = some t ∧
      (p.description = none → t.description = none) ∧
      (p.description = some "" → t.description = none) ∧
      (∀ d : String, p.description = some d → d ≠ "" → t.description = some d) := by
  refine ⟨createdRow db p, by rw [create_todo_eq], ?_, ?_, ?_, ?_⟩
  · exact get404_after_create db p h
  · intro hd
    show pyOrNone p.description = none
    rw [hd]
    rfl
  · intro hd
    show pyOrNone p.description = none
    rw [hd]
    rfl
  · intro d hd hne
    show pyOrNone p.description = some d
    rw [hd]
    show (if d = "" then none else some d : Option String) = some d
    rw [if_neg hne]

/-- Witness for C7 (amended): creating on the seeded database with a
non-empty description. -/
theorem create_description_normalizes_empty_witness :
    Inv seededDB ∧
    (∃ t : Todo,
      (create_todo seededDB { title := "x", description := some "d" }).1 =
        Resp.created t ∧
      get_todo_or_404
        (create_todo seededDB { title := "x", description := some "d" }).2
        t.id = some t ∧
      ((some "d" : Option String) = none → t.description = none) ∧
      ((some "d" : Option String) = some "" → t.description = none) ∧
      (∀ d : String, (some "d" : Option String) = some d → d ≠ "" →
        t.description = some d)) :=
  ⟨by decide, create_description_normalizes_empty seededDB
    { title := "x", description := some "d" } (by decide)⟩

theorem handle_get_none (db : DB) (raw : List Char)
    (h : parse_path_id raw = none) : handle_get db raw = Resp.validationError := by
  unfold handle_get
  rw [h]

theorem handle_toggle_none (db : DB) (raw : List Char)
    (h : parse_path_id raw = none) :
    handle_toggle db raw = (Resp.validationError, db) := by
  unfold handle_toggle
  rw [h]

theorem handle_delete_none (db : DB) (raw : List Char)
    (h : parse_path_id raw = none) :
    handle_delete db raw = (Resp.validationError, db) := by
  unfold handle_delete
  rw [h]

theorem handle_update_none (db : DB) (raw : List Char) (p : TodoUpdate)
    (h : parse_path_id raw = none) :
    handle_update db raw p = (Resp.validationError, db) := by
  unfold handle_update
  rw [h]

theorem handle_get_some (db : DB) (raw : List Char) (i : Int)
    (h : parse_path_id raw = some i) : handle_get db raw = get_todo db i := by
  unfold handle_get
  rw [h]

theorem handle_toggle_some (db : DB) (raw : List Char) (i : Int)
    (h : parse_path_id raw = some i) : handle_toggle db raw = toggle_todo db i := by
  unfold handle_toggle
  rw [h]

theorem handle_delete_some (db : DB) (raw : List Char) (i : Int)
    (h : parse_path_id raw = some i) : handle_delete db raw = delete_todo db i := by
  unfold handle_delete
  rw [h]

theorem handle_update_some (db : DB) (raw : List Char) (i : Int) (p : TodoUpdate)
    (h : parse_path_id raw = some i) :
    handle_update db raw p = update_todo db i p := by
  unfold handle_update
  rw [h]

/-- C8 counterexample: the path id 0 is not a positive integer, yet it
passes the framework's validation (the annotation is plain `int`) and
reaches the data-access layer, which answers 404 Todo not found rather
than a validation rejection. -/
theorem path_id_nonpositive_counterexample :
    parse_path_id [ '0' ] = some 0 ∧
    ¬(0 : Int) > 0 ∧
    handle_get seededDB [ '0' ] = Resp.notFound "Todo not found" ∧
    handle_get seededDB [ '0' ] ≠ Resp.validationError ∧
    (handle_toggle seededDB [ '0' ]).1 = Resp.notFound "Todo not found" ∧
    (handle_delete seededDB [ '0' ]).1 = Resp.notFound "Todo not found" := by
  decide

/-- C8 (amended): only the integer shape of the path id is validated: a
non-integer path id is rejected as a validation failure before the
handler runs, while a zero or negative integer id passes validation,
reaches the data-access layer, and yields 404 Todo not found with the
store unchanged, because every stored id is at least 1. -/
theorem path_id_shape_validation (db : DB) (raw : List Char) (h : Inv db) :
    (parse_path_id raw = none →
      handle_get db raw = Resp.validationError ∧
      handle_toggle db raw = (Resp.validationError, db) ∧
      handle_delete db raw = (Resp.validationError, db) ∧
      (∀ p : TodoUpdate, handle_update db raw p = (Resp.validationError, db))) ∧
    (∀ i : Int, parse_path_id raw = some i → i ≤ 0 →
      handle_get db raw = Resp.notFound "Todo not found" ∧
      handle_toggle db raw = (Resp.notFound "Todo not found", db) ∧
      handle_delete db raw = (Resp.notFound "Todo not found", db) ∧
      (∀ p : TodoUpdate,
        handle_update db raw p = (Resp.notFound "Todo not found", db))) := by
  constructor
  · intro hn
    exact ⟨handle_get_none db raw hn, handle_toggle_none db raw hn,
      handle_delete_none db raw hn, fun p => handle_update_none db raw p hn⟩
  · intro i hi hle
    have hnone : get_todo_or_404 db i = none := by
      rw [get404_eq_none_iff]
      intro t ht
      have := h.2.1 t ht
      omega
    refine ⟨?_, ?_, ?_, ?_⟩
    · rw [handle_get_some db raw i hi]
      unfold get_todo
      rw [hnone]
    · rw [handle_toggle_some db raw i hi]
      exact toggle_todo_none db i hnone
    · rw [handle_delete_some db raw i hi]
      exact delete_todo_none db i hnone
    · intro p
      rw [handle_update_some db raw i p hi]
      exact update_todo_none db i p hnone

/-- Witness for C8 (amended): the seeded database with the malformed path
id ab and the non-positive parsed path id 0. -/
theorem path_id_shape_validation_witness :
    Inv seededDB ∧
    (parse_path_id [ 'a', 'b' ] = none →
      handle_get seededDB [ 'a', 'b' ] = Resp.validationError ∧
      handle_toggle seededDB [ 'a', 'b' ] = (Resp.validationError, seededDB) ∧
      handle_delete seededDB [ 'a', 'b' ] = (Resp.validationError, seededDB) ∧
      (∀ p : TodoUpdate, handle_update seededDB [ 'a', 'b' ] p =
        (Resp.validationError, seededDB))) ∧
    (∀ i : Int, parse_path_id [ 'a', 'b' ] = some i → i ≤ 0 →
      handle_get seededDB [ 'a', 'b' ] = Resp.notFound "Todo not found" ∧
      handle_toggle seededDB [ 'a', 'b' ] =
        (Resp.notFound "Todo not found", seededDB) ∧
      handle_delete seededDB [ 'a', 'b' ] =
        (Resp.notFound "Todo not found", seededDB) ∧
      (∀ p : TodoUpdate, handle_update seededDB [ 'a', 'b' ] p =
        (Resp.notFound "Todo not found", seededDB))) :=
  ⟨by decide, path_id_shape_validation seededDB [ 'a', 'b' ] (by decide)⟩

/-- Running a trace of creates and deletes of existing ids changes the
row count by the number of creates minus the number of deletes. -/
theorem length_runOps_good (ops : List Op) (db : DB) (hInv : Inv db)
    (hg : goodTrace db ops = true) :
    (runOps db ops).rows.length + countDeletes ops =
      db.rows.length + countCreates ops := by
  induction ops generalizing db with
  | nil => simp [runOps, countDeletes, countCreates]
  | cons o rest ih =>
    cases o with
    | createOp p =>
      simp only [goodTrace] at hg
      have h2 := ih _ (inv_create db p hInv) hg
      have hlen : (create_todo db p).2.rows.length = db.rows.length + 1 := by
        rw [create_todo_eq]
        simp
      have hcc : countCreates (Op.createOp p :: rest) = countCreates rest + 1 := by
        simp [countCreates, List.countP_cons]
      have hcd : countDeletes (Op.createOp p :: rest) = countDeletes rest := by
        simp [countDeletes, List.countP_cons]
      show (runOps (create_todo db p).2 rest).rows.length +
          countDeletes (Op.createOp p :: rest) =
        db.rows.length + countCreates (Op.createOp p :: rest)
      rw [hcc, hcd]
      omega
    | updateOp i p => simp [goodTrace] at hg
    | toggleOp i => simp [goodTrace] at hg
    | deleteOp i =>
      simp only [goodTrace, Bool.and_eq_true] at hg
      obtain ⟨hex, hrest⟩ := hg
      have hexists : ∃ t ∈ db.rows, t.id = i := by
        simpa using hex
      obtain ⟨t, ht, hti⟩ := hexists
      cases hfind : get_todo_or_404 db i with
      | none =>
        exact absurd hti ((get404_eq_none_iff db i).mp hfind t ht)
      | some u =>
        have h2 := ih (delete_todo db i).2 (inv_applyOp db (Op.deleteOp i) hInv) hrest
        have hlen : (delete_todo db i).2.rows.length + 1 = db.rows.length := by
          rw [delete_todo_some db i u hfind]
          exact length_filter_remove db.rows i hInv.2.2 t ht hti
        have hcc : countCreates (Op.deleteOp i :: rest) = countCreates rest := by
          simp [countCreates, List.countP_cons]
        have hcd : countDeletes (Op.deleteOp i :: rest) = countDeletes rest + 1 := by
          simp [countDeletes, List.countP_cons]
        show (runOps (delete_todo db i).2 rest).rows.length +
            countDeletes (Op.deleteOp i :: rest) =
          db.rows.length + countCreates (Op.deleteOp i :: rest)
        rw [hcc, hcd]
        omega

/-- C5: list returns exactly the rows currently in the store, ordered by
ascending id; an empty store yields an empty sequence; and after a trace
of N creates and M deletes of existing ids run on the fresh store, the
list has exactly N minus M items. -/
theorem list_todos_ordered_and_counted :
    (∀ db : DB, ∃ ts : List Todo, list_todos db = Resp.okList ts ∧
      ts.Perm db.rows ∧ ts.Pairwise (fun a b => a.id ≤ b.id)) ∧
    list_todos emptyDB = Resp.okList [] ∧
    (∀ ops : List Op, goodTrace emptyDB ops = true →
      ∀ ts : List Todo, list_todos (runOps emptyDB ops) = Resp.okList ts →
        ts.length + countDeletes ops = countCreates ops ∧
        ts.length = countCreates ops - countDeletes ops) := by
  refine ⟨?_, ?_, ?_⟩
  · intro db
    refine ⟨db.rows.mergeSort idLe, rfl, List.mergeSort_perm _ _, ?_⟩
    have htrans : ∀ a b c : Todo, idLe a b = true → idLe b c = true →
        idLe a c = true := by
      intro a b c hab hbc
      simp only [idLe, decide_eq_true_eq] at hab hbc ⊢
      omega
    have htotal : ∀ a b : Todo, (idLe a b || idLe b a) = true := by
      intro a b
      simp only [idLe, Bool.or_eq_true, decide_eq_true_eq]
      omega
    have hs := List.sorted_mergeSort htrans htotal db.rows
    exact hs.imp (fun hab => by simpa [idLe] using hab)
  · show Resp.okList (emptyDB.rows.mergeSort idLe) = Resp.okList []
    rw [show emptyDB.rows = [] from rfl, List.mergeSort_nil]
  · intro ops hg ts hts
    have hlen := length_runOps_good ops emptyDB (by decide) hg
    have hts2 := Resp.okList.inj hts
    have hms : ts.length = (runOps emptyDB ops).rows.length := by
      rw [← hts2]
      exact List.length_mergeSort _
    rw [show emptyDB.rows.length = 0 from rfl] at hlen
    constructor
    · omega
    · omega

/-- Witness for C5: two creates then a delete of an existing id leave one
row in the list. -/
theorem list_todos_ordered_and_counted_witness :
    goodTrace emptyDB traceW = true ∧
    (∀ ts : List Todo, list_todos (runOps emptyDB traceW) = Resp.okList ts →
      ts.length + countDeletes traceW = countCreates traceW ∧
      ts.length = countCreates traceW - countDeletes traceW) :=
  ⟨by decide, list_todos_ordered_and_counted.2.2 traceW (by decide)⟩

/-- C1: for every valid create payload and every store reached by a trace
from an invariant-satisfying store, create returns 201 with a Todo whose
title equals the payload's title and whose completed is false, whose id
is unique (no current row carries it) and previously unseen (strictly
greater than every id that ever appeared in the store along the trace),
and a subsequent get-by-id with that id returns an object equal to the
one create returned. -/
theorem create_fresh_and_retrievable (db0 : DB) (ops : List Op) (p : TodoCreate)
    (h : Inv db0) :
    ∃ t : Todo,
      (create_todo (runOps db0 ops) p).1 = Resp.created t ∧
      t.title = p.title ∧
      t.completed = false ∧
      (∀ r ∈ (runOps db0 ops).rows, r.id ≠ t.id) ∧
      (∀ i : Int, everSeen db0 ops i → i < t.id) ∧
      get_todo (create_todo (runOps db0 ops) p).2 t.id = Resp.ok t := by
  have hdb : Inv (runOps db0 ops) := inv_runOps ops db0 h
  refine ⟨createdRow (runOps db0 ops) p, by rw [create_todo_eq], rfl, rfl,
    ?_, ?_, ?_⟩
  · intro r hr
    have := hdb.2.1 r hr
    rw [createdRow_id]
    omega
  · intro i hsi
    have := everSeen_lt_nextId ops db0 i h hsi
    rw [createdRow_id]
    exact this
  · unfold get_todo
    rw [get404_after_create (runOps db0 ops) p hdb]

/-- Witness for C1: creating on the fresh store after the empty trace. -/
theorem create_fresh_and_retrievable_witness :
    Inv emptyDB ∧
    (∃ t : Todo,
      (create_todo (runOps emptyDB [])
        { title := "Buy milk", description := none }).1 = Resp.created t ∧
      t.title = "Buy milk" ∧
      t.completed = false ∧
      (∀ r ∈ (runOps emptyDB []).rows, r.id ≠ t.id) ∧
      (∀ i : Int, everSeen emptyDB [] i → i < t.id) ∧
      get_todo (create_todo (runOps emptyDB [])
        { title := "Buy milk", description := none }).2 t.id = Resp.ok t) :=
  ⟨by decide, create_fresh_and_retrievable emptyDB []
    { title := "Buy milk", description := none } (by decide)⟩

end TodoApp
